import Mathlib

/-!
# Verification of the qboost demo orchestration pipeline

This development is a shallow embedding, in Lean 4, of `demo.py` from the
qboost repository: the training-and-evaluation orchestration pipeline that
compares four boosted binary classifiers on a chosen dataset.

Embedding conventions:

* Machine floating-point arithmetic is modelled over `ℚ` where the code only
  counts, divides and formats (the accuracy metric, the report), and over `ℝ`
  where square roots occur (the feature preprocessing: standardization divides
  by a standard deviation, L2 normalization divides by a Euclidean norm).
* The four classifier implementations (`AdaBoostClassifier`,
  `WeakClassifiers`, `QBoostClassifier`, `QboostPlus`) are opaque external
  collaborators of the file under verification; `train_models` is therefore
  parameterized by each adapter's fit outcome and prediction vectors.
  The preprocessed feature matrices flow only into those opaque adapters,
  so the orchestration core is stated over the adapters' prediction lists
  while the preprocessing itself (lines 77-86 of `demo.py`) is embedded
  separately over `ℝ` below.
* `stdout` is modelled as the list of printed lines, in order; a Python
  `print` of a string that starts with a newline contributes two lines.
* Exceptions are modelled with `Except` / an explicit `error` field: a raised
  exception aborts the remainder of `train_models`, keeping the lines printed
  so far.
-/

set_option linter.unusedVariables false

namespace QboostDemo

/-! ## The accuracy metric (`metric`, demo.py lines 32-34)

`metric(y, y_pred)` is `sklearn.metrics.accuracy_score`: the number of
positions where prediction and truth agree, divided by the number of
samples. -/

/-- Function `metric` / `sklearn.metrics.accuracy_score`: fraction of agreeing
positions.  On inputs of length 0 the quotient `0 / 0` is `0` in `ℚ`. -/
def accuracy_score (y yPred : List Int) : ℚ :=
  (((y.zip yPred).countP (fun p => p.1 == p.2) : ℤ) : ℚ) / (y.length : ℚ)

/-! ## Python string formatting used by the report -/

/-- Python `str.format` left-justification `"{:w}"` / `"{:<w}"`: pad with
spaces on the right to width `w`; longer strings are not truncated. -/
def padRight (s : String) (w : ℕ) : String :=
  s ++ String.mk (List.replicate (w - s.length) ' ')

/-- Python `str.format` right-justification (the default for numbers,
`"{:w.2f}"`): pad with spaces on the left to width `w`. -/
def padLeft (s : String) (w : ℕ) : String :=
  String.mk (List.replicate (w - s.length) ' ') ++ s

/-- Python `"%.2f"` rendering of a (non-negative, in all uses here) number:
two digits after the decimal point.  Rounding of exact ties is modelled as
round-half-up; CPython rounds the underlying binary double half-to-even,
which agrees except on exact decimal ties, and no claim under verification
depends on tie behavior. -/
def format2f (q : ℚ) : String :=
  let c : ℤ := round (q * 100)
  let frac : ℕ := (c % 100).toNat
  toString (c / 100) ++ "." ++ (if frac < 10 then "0" else "") ++ toString frac

/-! ## The orchestration core (`train_models`, demo.py lines 37-164)

The four classifiers are opaque collaborators: each is modelled by the
outcome of its `fit` call, its prediction vectors on the (preprocessed)
train and test matrices, and the rendering of its diagnostic weight vector.
The construction of the sampler handle (lines 61-62) is likewise modelled by
an `Except` outcome, since `SamplerUnavailableError` can surface there.
The feature preprocessing (lines 77-86) produces matrices consumed only by
these opaque adapters; it is embedded separately over `ℝ` further below. -/

/-- demo.py line 32: `metric(y, y_pred)` delegates to
`sklearn.metrics.accuracy_score`. -/
def metric (y yPred : List Int) : ℚ :=
  accuracy_score y yPred

/-- Constant `NUM_READS` (line 55). -/
def NUM_READS : ℕ := 3000

/-- Constant `NUM_WEAK_CLASSIFIERS` (line 56). -/
def NUM_WEAK_CLASSIFIERS : ℕ := 35

/-- Constant `TREE_DEPTH` (line 58). -/
def TREE_DEPTH : ℕ := 3

/-- The exception raised when the external optimization backend cannot be
reached (the spec's `SamplerUnavailableError`). -/
inductive TrainError where
  | samplerUnavailable
deriving DecidableEq, Repr

/-- An opaque model adapter, seen through the uniform `fit`/`predict`
contract: the outcome of its `fit` call, the prediction vectors it returns
on the preprocessed train and test matrices, and the string rendering of
its diagnostic `estimator_weights` (printed only in verbose mode). -/
structure Adapter where
  fit : Except TrainError Unit
  predTrain : List Int
  predTest : List Int
  weightsRepr : String

/-- Outcome of a `train_models` call: the stdout lines emitted before
completion or abort, the exception that aborted it (if any), the
`(train, test)` accuracy pairs printed in the per-model headline sections
(lines 101-153), and the rows of the final comparison table
(lines 160-163; empty if the run aborted before the table). -/
structure RunResult where
  lines : List String
  error : Option TrainError
  headlines : List (ℚ × ℚ)
  tableVals : List (String × ℚ × ℚ)

/-- The two headline accuracy lines of a model section
(e.g. lines 101-102): `'Accuracy on training set: {:5.2f}'`. -/
def accLines (aTr aTe : ℚ) : List String :=
  ["Accuracy on training set: " ++ padLeft (format2f aTr) 5,
   "Accuracy on test set:     " ++ padLeft (format2f aTe) 5]

/-- The lines of a verbose weight print such as line 114
(`print('weights:\n', clf2.estimator_weights)`); `header` is `"weights:"`
at line 114 and `"weights"` at lines 136 and 150. -/
def verboseLines (verbose : Bool) (header : String) (w : String) : List String :=
  if verbose then [header, " " ++ w] else []

/-- A rule line of the table, `'=' * 28` or `'-' * 28` (lines 157, 159,
164). -/
def ruleLine (c : Char) : String :=
  String.mk (List.replicate 28 c)

/-- Line 158: `"{:14}{:7}{:7}".format("Method", "Train", "Test")`. -/
def tableHeader : String :=
  padRight "Method" 14 ++ padRight "Train" 7 ++ padRight "Test" 7

/-- Line 160: the method names, in the fixed order of the report. -/
def methodNames : List String :=
  ["Adaboost", "DecisionTree", "Qboost", "QboostIt"]

/-- Lines 160-163: the table recomputes `metric` from the stored prediction
vectors, zipping the names with the per-model train and test predictions. -/
def tableRows (y_train y_test : List Int) (predsTr predsTe : List (List Int)) :
    List (String × ℚ × ℚ) :=
  (methodNames.zip (predsTr.zip predsTe)).map
    (fun p => (p.1, metric y_train p.2.1, metric y_test p.2.2))

/-- Line 163: `"{:14}{:<7.2f}{:<7.2f}".format(name, ...)`. -/
def renderRow (r : String × ℚ × ℚ) : String :=
  padRight r.1 14 ++ padRight (format2f r.2.1) 7 ++ padRight (format2f r.2.2) 7

/-- Lines 156-164: the final comparison table block. -/
def tableLines (rows : List (String × ℚ × ℚ)) : List String :=
  ["", ruleLine '=', tableHeader, ruleLine '-'] ++ rows.map renderRow ++ [ruleLine '=']

/-- The four size/configuration lines printed at lines 67-70. -/
def sizeLines (nTrain nTest : ℕ) : List String :=
  ["Size of training set: " ++ toString nTrain,
   "Size of test set:     " ++ toString nTest,
   "Number of weak classifiers: " ++ toString NUM_WEAK_CLASSIFIERS,
   "Tree depth: " ++ toString TREE_DEPTH]

/-- Function `train_models` (demo.py lines 37-164).  `samplerInit` is the outcome of
constructing the sampler handle (lines 61-62); `ada`, `dt`, `qb`, `qbit`
are the four opaque adapters in program order.  A raised exception (an
`Except.error` from the sampler construction or any `fit`) propagates: the
function stops at that point, keeping the lines already printed — there is
no `try`/`except` anywhere in `train_models`.  `lmd` is forwarded to the
opaque `fit` calls of `qb` and `qbit` and plays no further role. -/
def train_models (samplerInit : Except TrainError Unit)
    (X_train X_test : List (List ℚ)) (y_train y_test : List Int)
    (ada dt qb qbit : Adapter) (lmd : ℚ) (verbose : Bool := false) : RunResult :=
  match samplerInit with
  | .error e => ⟨[], some e, [], []⟩
  | .ok _ =>
    let intro := sizeLines X_train.length X_test.length
    match ada.fit with
    | .error e => ⟨intro ++ ["", "Adaboost:"], some e, [], []⟩
    | .ok _ =>
      let adaTr := metric y_train ada.predTrain
      let adaTe := metric y_test ada.predTest
      let adaSec := ["", "Adaboost:"] ++ accLines adaTr adaTe
      match dt.fit with
      | .error e => ⟨intro ++ adaSec ++ ["", "Decision tree:"], some e, [(adaTr, adaTe)], []⟩
      | .ok _ =>
        let dtTr := metric y_train dt.predTrain
        let dtTe := metric y_test dt.predTest
        let dtSec := ["", "Decision tree:"] ++ verboseLines verbose "weights:" dt.weightsRepr
          ++ accLines dtTr dtTe
        match qb.fit with
        | .error e =>
          ⟨intro ++ adaSec ++ dtSec ++ ["", "QBoost:"], some e,
            [(adaTr, adaTe), (dtTr, dtTe)], []⟩
        | .ok _ =>
          let qbTr := metric y_train qb.predTrain
          let qbTe := metric y_test qb.predTest
          let qbSec := ["", "QBoost:"] ++ verboseLines verbose "weights" qb.weightsRepr
            ++ accLines qbTr qbTe
          match qbit.fit with
          | .error e =>
            ⟨intro ++ adaSec ++ dtSec ++ qbSec ++ ["", "QBoostPlus:"], some e,
              [(adaTr, adaTe), (dtTr, dtTe), (qbTr, qbTe)], []⟩
          | .ok _ =>
            let qbitTr := metric y_train qbit.predTrain
            let qbitTe := metric y_test qbit.predTest
            let qbitSec := ["", "QBoostPlus:"] ++ verboseLines verbose "weights" qbit.weightsRepr
              ++ accLines qbitTr qbitTe
            let rows := tableRows y_train y_test
              [ada.predTrain, dt.predTrain, qb.predTrain, qbit.predTrain]
              [ada.predTest, dt.predTest, qb.predTest, qbit.predTest]
            ⟨intro ++ adaSec ++ dtSec ++ qbSec ++ qbitSec ++ tableLines rows, none,
              [(adaTr, adaTe), (dtTr, dtTe), (qbTr, qbTe), (qbitTr, qbitTe)], rows⟩

/-! ## The command-line surface and the two dataset branches
(demo.py lines 167-217)

The `__main__` block parses one positional argument restricted to
`choices=["mnist", "wisc"]`, loads the selected dataset, shuffles its index
range, partitions it, derives spin labels, and calls `train_models`.
The raw datasets (`fetch_openml('mnist_784')`, `load_breast_cancer()`) and
the value of the unseeded `np.random.shuffle` are environment inputs. -/

/-- Numpy fancy indexing `xs[idx]`, with a default for the (never exercised)
out-of-range case. -/
def select {α : Type} (dflt : α) (xs : List α) (idx : List ℕ) : List α :=
  idx.map (fun i => xs.getD i dflt)

/-- Constant `n = 5000` of the mnist branch (line 184): the number of
shuffled samples retained before partitioning. -/
def mnist_n : ℕ := 5000

/-- Lines 185-187 of the mnist branch: `idx = idx[:n]`,
`idx_train = idx[:2*n//3]`, `idx_test = idx[2*n//3:]`, with `n = 5000`
fixed.  `idx` is the shuffled index range of the full dataset. -/
def mnist_partition (idx : List ℕ) : List ℕ × List ℕ :=
  let idx5 := idx.take mnist_n
  (idx5.take (2 * mnist_n / 3), idx5.drop (2 * mnist_n / 3))

/-- Lines 208-209 of the wisc branch: `idx_train = idx[:2*len(idx)//3]`,
`idx_test = idx[2*len(idx)//3:]`. -/
def wisc_partition (idx : List ℕ) : List ℕ × List ℕ :=
  (idx.take (2 * idx.length / 3), idx.drop (2 * idx.length / 3))

/-- Line 193: `2*(target <= '4') - 1` on the string-valued mnist target
(Python compares strings lexicographically, as Lean's `≤` on `String`
does). -/
def mnist_label (t : String) : Int :=
  2 * (if t ≤ "4" then 1 else 0) - 1

/-- Line 214: `2 * target - 1` on the 0/1-valued wisc target
(`binary -> spin`). -/
def wisc_label (t : Int) : Int :=
  2 * t - 1

/-- The label vector `y` of the mnist branch for a given index selection
(lines 193-194). -/
def mnist_labels (targets : List String) (idx : List ℕ) : List Int :=
  (select "" targets idx).map mnist_label

/-- The label vector `y` of the wisc branch for a given index selection
(lines 214-215). -/
def wisc_labels (targets : List Int) (idx : List ℕ) : List Int :=
  (select 0 targets idx).map wisc_label

/-- Line 171: `parser.add_argument("dataset", choices=["mnist", "wisc"])`. -/
def datasetChoices : List String :=
  ["mnist", "wisc"]

/-- Modelled from the documented semantics of Python argparse, which is an
external library (only the `choices` list at line 171 is in this
repository): on an argument outside `choices`, `parse_args` prints a usage
line and an error line to stderr and exits the process with status 2. -/
def usageDiagnostic (arg : String) : List String :=
  ["usage: demo.py [-h] \x7bmnist,wisc\x7d",
   "demo.py: error: argument dataset: invalid choice: \x27" ++ arg ++
     "\x27 (choose from \x27mnist\x27, \x27wisc\x27)"]

/-- The environment of a `__main__` run: everything the script consumes
from outside — the outcome of constructing the sampler handle, the two
raw datasets, the (unseeded) shuffle results, and the four opaque
adapters. -/
structure Env where
  samplerInit : Except TrainError Unit
  mnistRows : List (List ℚ)
  mnistTargets : List String
  mnistShuffle : List ℕ
  wiscRows : List (List ℚ)
  wiscTargets : List Int
  wiscShuffle : List ℕ
  ada : Adapter
  dt : Adapter
  qb : Adapter
  qbit : Adapter

/-- Overall outcome of a `__main__` invocation. -/
inductive MainResult where
  /-- argparse rejected the arguments: exit with `exitCode` after printing
  `stderrLines`; no dataset was loaded and no training was invoked. -/
  | usage (exitCode : ℕ) (stderrLines : List String)
  /-- A dataset branch ran: `banner` is its first stdout line and `r` the
  outcome of the `train_models` call. -/
  | run (banner : String) (r : RunResult)
  /-- Dead branch: parsing succeeded but no dataset branch matched
  (unreachable, since the branches cover `datasetChoices`). -/
  | noBranch

/-- The `__main__` block (lines 167-217): argparse validation, then the
`mnist` or `wisc` branch, each partitioning the shuffled indices, selecting
rows and spin labels, and calling `train_models` with `lmd = 1.0`. -/
def main (env : Env) (arg : String) : MainResult :=
  if arg ∈ datasetChoices then
    if arg = "mnist" then
      let p := mnist_partition env.mnistShuffle
      let X_train := select [] env.mnistRows p.1
      let X_test := select [] env.mnistRows p.2
      let y_train := mnist_labels env.mnistTargets p.1
      let y_test := mnist_labels env.mnistTargets p.2
      .run "MNIST handwritten digits data set:"
        (train_models env.samplerInit X_train X_test y_train y_test
          env.ada env.dt env.qb env.qbit 1)
    else if arg = "wisc" then
      let p := wisc_partition env.wiscShuffle
      let X_train := select [] env.wiscRows p.1
      let X_test := select [] env.wiscRows p.2
      let y_train := wisc_labels env.wiscTargets p.1
      let y_test := wisc_labels env.wiscTargets p.2
      .run "Wisconsin breast cancer data set:"
        (train_models env.samplerInit X_train X_test y_train y_test
          env.ada env.dt env.qb env.qbit 1)
    else .noBranch
  else .usage 2 (usageDiagnostic arg)

/-! ## The feature preprocessing (demo.py lines 77-86)

`sklearn.preprocessing.StandardScaler` (per-feature standardization) and
`sklearn.preprocessing.Normalizer` (per-sample L2 normalization), embedded
over `ℝ`.  `StandardScaler.fit` computes per-column mean and biased
variance; the divisor `scale_` is the square root of the variance, with
zeros replaced by 1 (sklearn `_handle_zeros_in_scale`), so zero-variance
columns are only centered.  `Normalizer` scales each row by its L2 norm,
leaving zero-norm rows unchanged.  These functions are `noncomputable`
only because `ℝ` square roots and division are; all claims about them are
settled by theorem, with concrete instances evaluated by `simp`/`norm_num`. -/

/-- A matrix column as read by the scaler: the j-th entry of every row. -/
noncomputable def col (X : List (List ℝ)) (j : ℕ) : List ℝ :=
  X.map (fun r => r.getD j 0)

/-- Column mean (`StandardScaler.mean_`). -/
noncomputable def mean (l : List ℝ) : ℝ :=
  l.sum / l.length

/-- Column biased variance (`StandardScaler.var_`, `ddof = 0`). -/
noncomputable def variance (l : List ℝ) : ℝ :=
  ((l.map (fun x => (x - mean l) ^ 2)).sum) / l.length

/-- Column divisor (`StandardScaler.scale_`): the standard deviation, with
zeros replaced by 1 (`_handle_zeros_in_scale`). -/
noncomputable def scale (l : List ℝ) : ℝ :=
  if Real.sqrt (variance l) = 0 then 1 else Real.sqrt (variance l)

/-- `StandardScaler.fit_transform(X)`: per column, subtract the mean and
divide by `scale`. -/
noncomputable def standardize (X : List (List ℝ)) : List (List ℝ) :=
  X.map (fun r => r.mapIdx (fun j x => (x - mean (col X j)) / scale (col X j)))

/-- Sum of squared entries of a row. -/
noncomputable def sumSq (r : List ℝ) : ℝ :=
  (r.map (fun x => x ^ 2)).sum

/-- L2 norm of a row. -/
noncomputable def rowNorm (r : List ℝ) : ℝ :=
  Real.sqrt (sumSq r)

/-- One row of `Normalizer.fit_transform`: scale to unit L2 norm; rows of
norm zero are left unchanged (sklearn replaces zero norms by 1). -/
noncomputable def normalizeRow (r : List ℝ) : List ℝ :=
  if rowNorm r = 0 then r else r.map (fun x => x / rowNorm r)

/-- `Normalizer.fit_transform(X)`: per-sample L2 normalization.  The
normalizer keeps no cross-sample state. -/
noncomputable def normalize (X : List (List ℝ)) : List (List ℝ) :=
  X.map normalizeRow

/-- The generic `fit_transform` pipeline applied to one matrix: fit and
apply standardization, then normalization, on that matrix alone. -/
noncomputable def fit_transform (X : List (List ℝ)) : List (List ℝ) :=
  normalize (standardize X)

/-- Lines 81-86: the same `scaler` and `normalizer` objects are refit on
`X_test`; each matrix goes through `fit_transform` fitted on itself. -/
noncomputable def preprocess (X_train X_test : List (List ℝ)) :
    List (List ℝ) × List (List ℝ) :=
  let X_train1 := standardize X_train
  let X_train2 := normalize X_train1
  let X_test1 := standardize X_test
  let X_test2 := normalize X_test1
  (X_train2, X_test2)

/-- Modelled from the spec: the fit-once-apply-twice alternative of §9
(standardize `X` with the column statistics fitted on `Xfit`, then
L2-normalize rows), used only to show the code's refit-on-test behavior
differs from it. -/
noncomputable def transform_with_train_params (Xfit X : List (List ℝ)) :
    List (List ℝ) :=
  normalize (X.map (fun r => r.mapIdx (fun j x => (x - mean (col Xfit j)) / scale (col Xfit j))))

/-! ## Supporting lemmas -/

lemma format2f_of_round (q : ℚ) (c : ℤ) (hc : round (q * 100) = c) :
    format2f q =
      toString (c / 100) ++ "." ++
        (if (c % 100).toNat < 10 then "0" else "") ++ toString (c % 100).toNat := by
  simp only [format2f, hc]

lemma format2f_body_length (c : ℤ) (h0 : 0 ≤ c) (h1 : c ≤ 100) :
    (toString (c / 100) ++ "." ++
      (if (c % 100).toNat < 10 then "0" else "") ++ toString (c % 100).toNat).length = 4 := by
  interval_cases c <;> rfl

lemma round_bounds (q : ℚ) (h0 : 0 ≤ q) (h1 : q ≤ 1) :
    0 ≤ round (q * 100) ∧ round (q * 100) ≤ 100 := by
  constructor
  · rw [round_eq]
    apply Int.floor_nonneg.mpr
    nlinarith
  · rw [round_eq]
    have h : (q * 100 + 1 / 2 : ℚ) < ((101 : ℤ) : ℚ) := by push_cast; nlinarith
    have := Int.floor_lt.mpr h
    omega

lemma format2f_length (q : ℚ) (h0 : 0 ≤ q) (h1 : q ≤ 1) :
    (format2f q).length = 4 := by
  obtain ⟨hl, hr⟩ := round_bounds q h0 h1
  rw [format2f_of_round q (round (q * 100)) rfl]
  exact format2f_body_length _ hl hr

lemma padRight_length (s : String) (w : ℕ) (h : s.length ≤ w) :
    (padRight s w).length = w := by
  simp [padRight]
  omega

lemma ruleLine_length (c : Char) : (ruleLine c).length = 28 := by
  simp [ruleLine]

lemma tableHeader_length : tableHeader.length = 28 := by rfl

lemma metric_nonneg (y p : List Int) : 0 ≤ metric y p := by
  unfold metric accuracy_score
  positivity

lemma metric_le_one (y p : List Int) : metric y p ≤ 1 := by
  unfold metric accuracy_score
  rcases Nat.eq_zero_or_pos y.length with h | h
  · simp [h]
  · rw [div_le_one (by positivity)]
    have := List.countP_le_length (l := y.zip p) (p := fun q => q.1 == q.2)
    have h2 : (y.zip p).length ≤ y.length := by
      simp [List.length_zip]
    push_cast
    exact_mod_cast le_trans this h2

/-! ## Claim theorems -/

lemma countP_zip_eq_range (y p : List Int) (h : y.length = p.length) :
    (y.zip p).countP (fun q => q.1 == q.2) =
      (List.range y.length).countP (fun i => y.getD i 0 == p.getD i 0) := by
  induction y generalizing p with
  | nil => simp
  | cons a ys ih =>
    cases p with
    | nil => simp at h
    | cons b ps =>
      have hl : ys.length = ps.length := by simpa using h
      simp only [List.zip_cons_cons, List.countP_cons, List.length_cons,
        List.range_succ_eq_map, List.countP_map]
      rw [ih ps hl]
      have hc : List.countP (fun i => ys.getD i 0 == ps.getD i 0) (List.range ys.length) =
          List.countP ((fun i => (a :: ys).getD i 0 == (b :: ps).getD i 0) ∘ Nat.succ)
            (List.range ys.length) :=
        List.countP_congr (fun i hi => by simp [Function.comp])
      rw [hc]
      simp

/-- Claim C7: for every pair of equal-length prediction and ground-truth
label vectors, the accuracy metric equals the fraction of positions at
which the prediction equals the label, and it is invariant under any
permutation applied identically to both vectors (stated as: any
permutation of the zipped (truth, prediction) pairs leaves the value
unchanged). -/
theorem accuracy_is_fraction_of_matching_positions_and_perm_invariant
    (y p : List Int) (h : y.length = p.length) :
    accuracy_score y p =
      ((List.range y.length).countP (fun i => y.getD i 0 == p.getD i 0) : ℤ) / (y.length : ℚ)
    ∧ ∀ q r : List Int, q.length = r.length → (y.zip p).Perm (q.zip r) →
        accuracy_score y p = accuracy_score q r := by
  constructor
  · rw [accuracy_score, countP_zip_eq_range y p h]
  · intro q r hqr hperm
    have hcount := hperm.countP_eq (fun x => x.1 == x.2)
    have hlen : (y.zip p).length = (q.zip r).length := hperm.length_eq
    rw [List.length_zip, List.length_zip, h, hqr] at hlen
    simp only [min_self] at hlen
    rw [accuracy_score, accuracy_score, hcount, h, hqr, hlen]

/-- Witness for C7: the accuracy of a concrete prediction/label pair is
unchanged when the first two sample positions are swapped in both
vectors. -/
theorem accuracy_perm_invariance_witness :
    accuracy_score [1, -1, 1] [1, 1, -1] = accuracy_score [-1, 1, 1] [1, 1, -1] :=
  (accuracy_is_fraction_of_matching_positions_and_perm_invariant
      [1, -1, 1] [1, 1, -1] (by rfl)).2
    [-1, 1, 1] [1, 1, -1] (by rfl)
    (List.Perm.swap ((-1 : ℤ), (1 : ℤ)) ((1 : ℤ), (1 : ℤ)) [((1 : ℤ), (-1 : ℤ))])

/-- Claim C1 (amended): for the wisc branch the claim holds as stated —
for any shuffle `idx` of the dataset's index range, the train split is the
first `2*len//3` (floor) shuffled indices, the test split the remainder,
the two are disjoint, and together they are exactly a permutation of the
original index set, with lengths summing to the dataset size.  For the
mnist branch, the code first truncates the shuffled index list to its
first `min 5000 N` entries (lines 184-185) and partitions only that
subsample: the split lengths sum to `min 5000 N` (not `N`), the splits are
disjoint subsets of the original index set, and the train split is the
first `2*5000//3 = 3333` entries of the truncated list. -/
theorem split_partition_properties (N : ℕ) (idx : List ℕ)
    (hperm : idx.Perm (List.range N)) :
    (wisc_partition idx).1.length + (wisc_partition idx).2.length = N
    ∧ (wisc_partition idx).1 ++ (wisc_partition idx).2 = idx
    ∧ ((wisc_partition idx).1 ++ (wisc_partition idx).2).Perm (List.range N)
    ∧ (wisc_partition idx).1.Disjoint (wisc_partition idx).2
    ∧ (wisc_partition idx).1 = idx.take (2 * N / 3)
    ∧ (mnist_partition idx).1.length + (mnist_partition idx).2.length = min mnist_n N
    ∧ (mnist_partition idx).1 ++ (mnist_partition idx).2 = idx.take mnist_n
    ∧ (mnist_partition idx).1.Disjoint (mnist_partition idx).2
    ∧ ((mnist_partition idx).1 ++ (mnist_partition idx).2) ⊆ List.range N
    ∧ (mnist_partition idx).1 = (idx.take mnist_n).take (2 * mnist_n / 3) := by
  have hlen : idx.length = N := by simpa using hperm.length_eq
  have hnodup : idx.Nodup := hperm.nodup_iff.mpr (List.nodup_range N)
  have hw : (wisc_partition idx).1 ++ (wisc_partition idx).2 = idx :=
    List.take_append_drop _ idx
  have hm : (mnist_partition idx).1 ++ (mnist_partition idx).2 = idx.take mnist_n :=
    List.take_append_drop _ _
  have htn : (idx.take mnist_n).Nodup := (List.take_sublist _ _).nodup hnodup
  refine ⟨?_, hw, ?_, ?_, ?_, ?_, hm, ?_, ?_, rfl⟩
  · have h := congrArg List.length hw
    simp only [List.length_append, hlen] at h
    exact h
  · rw [hw]; exact hperm
  · have h : ((wisc_partition idx).1 ++ (wisc_partition idx).2).Nodup := by
      rw [hw]; exact hnodup
    exact (List.nodup_append.mp h).2.2
  · simp [wisc_partition, hlen]
  · have h := congrArg List.length hm
    simp only [List.length_append, List.length_take, hlen] at h
    simpa using h
  · have h : ((mnist_partition idx).1 ++ (mnist_partition idx).2).Nodup := by
      rw [hm]; exact htn
    exact (List.nodup_append.mp h).2.2
  · intro x hx
    rw [hm] at hx
    exact hperm.subset (List.take_subset _ _ hx)

/-- Counterexample to claim C1 as stated: for the mnist dataset (70000
samples in `mnist_784`), under the identity shuffle — one possible outcome
of the unseeded `np.random.shuffle` — the two splits passed to
`train_models` have lengths summing to 5000, not 70000, and index 69999 of
the dataset belongs to neither split, so the splits are not jointly
exhaustive over the dataset's original index set. -/
theorem mnist_split_not_exhaustive :
    ((mnist_partition (List.range 70000)).1.length
        + (mnist_partition (List.range 70000)).2.length ≠ 70000)
    ∧ 69999 ∈ List.range 70000
    ∧ 69999 ∉ (mnist_partition (List.range 70000)).1
    ∧ 69999 ∉ (mnist_partition (List.range 70000)).2 := by
  have h5 : (List.range 70000).take mnist_n = List.range 5000 := by
    rw [List.take_range]
    norm_num [mnist_n]
  refine ⟨?_, ?_, ?_, ?_⟩
  · norm_num [mnist_partition, h5, mnist_n]
  · simp
  · intro hx
    simp only [mnist_partition, h5] at hx
    have := List.take_subset _ _ hx
    simp at this
  · intro hx
    simp only [mnist_partition, h5] at hx
    have := List.drop_subset _ _ hx
    simp at this

/-- Witness for the amended C1, at the concrete shuffle `[2,0,5,1,4,3]`
of a 6-sample dataset. -/
theorem split_partition_witness :
    (wisc_partition [2, 0, 5, 1, 4, 3]).1.length
        + (wisc_partition [2, 0, 5, 1, 4, 3]).2.length = 6
    ∧ (mnist_partition [2, 0, 5, 1, 4, 3]).1 ++ (mnist_partition [2, 0, 5, 1, 4, 3]).2
        = [2, 0, 5, 1, 4, 3].take mnist_n := by
  have h := split_partition_properties 6 [2, 0, 5, 1, 4, 3] (by decide)
  exact ⟨h.1, h.2.2.2.2.2.2.1⟩


/-- Claim C2 (amended): if the QBoost adapter's `fit` raises
`SamplerUnavailableError`, the exception propagates out of `train_models`
(there is no `try`/`except` in the function): the run aborts at the QBoost
section header, the final comparison table is never produced, and no
accuracy rows are reported for any adapter — only the headline sections
already printed (Adaboost and DecisionTree) remain in the output. -/
theorem qboost_fit_failure_aborts_run
    (Xtr Xte : List (List ℚ)) (ytr yte : List Int) (ada dt qb qbit : Adapter)
    (lmd : ℚ) (verbose : Bool) (e : TrainError) (r : RunResult)
    (hada : ada.fit = .ok ()) (hdt : dt.fit = .ok ()) (hqb : qb.fit = .error e)
    (hr : r = train_models (.ok ()) Xtr Xte ytr yte ada dt qb qbit lmd verbose) :
    r.error = some e ∧ r.tableVals = []
    ∧ r.headlines = [(metric ytr ada.predTrain, metric yte ada.predTest),
        (metric ytr dt.predTrain, metric yte dt.predTest)]
    ∧ r.lines = sizeLines Xtr.length Xte.length
        ++ (["", "Adaboost:"] ++ accLines (metric ytr ada.predTrain) (metric yte ada.predTest))
        ++ (["", "Decision tree:"] ++ verboseLines verbose "weights:" dt.weightsRepr
            ++ accLines (metric ytr dt.predTrain) (metric yte dt.predTest))
        ++ ["", "QBoost:"] := by
  subst hr
  simp [train_models, hada, hdt, hqb]

/-- Counterexample to claim C2 as stated: at a concrete run in which the
QBoost adapter's `fit` fails with the sampler-unavailable error while every
other step succeeds, the final comparison table holds no rows at all — in
particular none for the remaining adapters — and the whole run aborts with
the error. -/
theorem qboost_fit_failure_counterexample :
    (train_models (.ok ()) [[1], [2]] [[3], [4]] [1, -1] [1, -1]
        ⟨.ok (), [1, -1], [1, 1], ""⟩ ⟨.ok (), [1, 1], [-1, 1], ""⟩
        ⟨.error .samplerUnavailable, [], [], ""⟩ ⟨.ok (), [], [], ""⟩ 1).tableVals = []
    ∧ (train_models (.ok ()) [[1], [2]] [[3], [4]] [1, -1] [1, -1]
        ⟨.ok (), [1, -1], [1, 1], ""⟩ ⟨.ok (), [1, 1], [-1, 1], ""⟩
        ⟨.error .samplerUnavailable, [], [], ""⟩ ⟨.ok (), [], [], ""⟩ 1).error
      = some .samplerUnavailable := by
  constructor <;> simp [train_models]

/-- Witness for the amended C2 at a concrete input. -/
theorem qboost_fit_failure_witness :
    (train_models (.ok ()) [[5]] [[6]] [1] [-1]
        ⟨.ok (), [1], [1], "w"⟩ ⟨.ok (), [-1], [-1], "w"⟩
        ⟨.error .samplerUnavailable, [1], [1], "w"⟩ ⟨.ok (), [1], [1], "w"⟩ 1 false).error
      = some .samplerUnavailable
    ∧ (train_models (.ok ()) [[5]] [[6]] [1] [-1]
        ⟨.ok (), [1], [1], "w"⟩ ⟨.ok (), [-1], [-1], "w"⟩
        ⟨.error .samplerUnavailable, [1], [1], "w"⟩ ⟨.ok (), [1], [1], "w"⟩ 1 false).tableVals
      = [] := by
  have h := qboost_fit_failure_aborts_run [[5]] [[6]] [1] [-1]
    ⟨.ok (), [1], [1], "w"⟩ ⟨.ok (), [-1], [-1], "w"⟩
    ⟨.error .samplerUnavailable, [1], [1], "w"⟩ ⟨.ok (), [1], [1], "w"⟩ 1 false
    .samplerUnavailable _ rfl rfl rfl rfl
  exact ⟨h.1, h.2.1⟩


/-- Claim C9 (amended): `train_models` performs no split-size validation
and the program defines no `EmptySplitError`; whatever the split sizes —
including a zero-length training or test split — the run proceeds and, when
every `fit` succeeds, completes with the full four-row table.  The metric
itself (modelled as the total function matches/length, with `0/0 = 0`) is
well-defined, with value in `[0, 1]`, on every non-empty split. -/
theorem run_completes_without_split_size_check
    (Xtr Xte : List (List ℚ)) (ytr yte : List Int) (ada dt qb qbit : Adapter)
    (lmd : ℚ) (verbose : Bool) (r : RunResult)
    (hada : ada.fit = .ok ()) (hdt : dt.fit = .ok ())
    (hqb : qb.fit = .ok ()) (hqbit : qbit.fit = .ok ())
    (hr : r = train_models (.ok ()) Xtr Xte ytr yte ada dt qb qbit lmd verbose) :
    r.error = none ∧ r.tableVals.length = 4 ∧ r.headlines.length = 4
    ∧ (∀ y p : List Int, y ≠ [] → 0 ≤ metric y p ∧ metric y p ≤ 1) := by
  subst hr
  refine ⟨?_, ?_, ?_, fun y p _ => ⟨metric_nonneg y p, metric_le_one y p⟩⟩
    <;> simp [train_models, hada, hdt, hqb, hqbit, tableRows, methodNames]

/-- Counterexample to claim C9 as stated: a concrete run whose test split
has zero length is not rejected — no error of any kind is raised and the
full four-row table is still produced, where the claim demands a failure
with `EmptySplitError`. -/
theorem empty_test_split_not_rejected :
    (train_models (.ok ()) [[5], [6]] [] [1, 1] []
        ⟨.ok (), [1, 1], [], "a"⟩ ⟨.ok (), [1, -1], [], "b"⟩
        ⟨.ok (), [-1, 1], [], "c"⟩ ⟨.ok (), [1, 1], [], "d"⟩ 1).error = none
    ∧ (train_models (.ok ()) [[5], [6]] [] [1, 1] []
        ⟨.ok (), [1, 1], [], "a"⟩ ⟨.ok (), [1, -1], [], "b"⟩
        ⟨.ok (), [-1, 1], [], "c"⟩ ⟨.ok (), [1, 1], [], "d"⟩ 1).tableVals.length = 4 := by
  constructor <;> simp [train_models, tableRows, methodNames]

/-- Witness for the amended C9, at a run whose splits are all empty. -/
theorem run_completes_witness :
    (train_models (.ok ()) [] [] [] []
        ⟨.ok (), [], [], ""⟩ ⟨.ok (), [], [], ""⟩
        ⟨.ok (), [], [], ""⟩ ⟨.ok (), [], [], ""⟩ 1 false).error = none
    ∧ (train_models (.ok ()) [] [] [] []
        ⟨.ok (), [], [], ""⟩ ⟨.ok (), [], [], ""⟩
        ⟨.ok (), [], [], ""⟩ ⟨.ok (), [], [], ""⟩ 1 false).tableVals.length = 4 := by
  have h := run_completes_without_split_size_check [] [] [] []
    ⟨.ok (), [], [], ""⟩ ⟨.ok (), [], [], ""⟩ ⟨.ok (), [], [], ""⟩ ⟨.ok (), [], [], ""⟩
    1 false _ rfl rfl rfl rfl rfl
  exact ⟨h.1, h.2.1⟩

/-- Claim C10: for each of the four adapters, the `(train, test)` accuracy
pair printed in its headline section equals the pair in its row of the
final comparison table: both apply the same `metric` function to the same
stored prediction vector and the same ground-truth vector (the table loop
at lines 160-163 reuses `y_train_pred`, `y_train_pred2`, `y_train_dw`,
`y_train4` and their test counterparts; no adapter is refit and no
prediction is recomputed in between). -/
theorem headline_and_table_accuracies_agree
    (Xtr Xte : List (List ℚ)) (ytr yte : List Int) (ada dt qb qbit : Adapter)
    (lmd : ℚ) (verbose : Bool) (r : RunResult)
    (hada : ada.fit = .ok ()) (hdt : dt.fit = .ok ())
    (hqb : qb.fit = .ok ()) (hqbit : qbit.fit = .ok ())
    (hr : r = train_models (.ok ()) Xtr Xte ytr yte ada dt qb qbit lmd verbose) :
    r.headlines = [(metric ytr ada.predTrain, metric yte ada.predTest),
        (metric ytr dt.predTrain, metric yte dt.predTest),
        (metric ytr qb.predTrain, metric yte qb.predTest),
        (metric ytr qbit.predTrain, metric yte qbit.predTest)]
    ∧ r.tableVals = tableRows ytr yte
        [ada.predTrain, dt.predTrain, qb.predTrain, qbit.predTrain]
        [ada.predTest, dt.predTest, qb.predTest, qbit.predTest]
    ∧ r.tableVals.map (fun row => (row.2.1, row.2.2)) = r.headlines := by
  subst hr
  refine ⟨?_, ?_, ?_⟩ <;> simp [train_models, hada, hdt, hqb, hqbit, tableRows, methodNames]

/-- Witness for C10 at a concrete run. -/
theorem headline_and_table_witness :
    (train_models (.ok ()) [[7]] [[8]] [1, -1] [-1]
        ⟨.ok (), [1, 1], [-1], "a"⟩ ⟨.ok (), [1, -1], [1], "b"⟩
        ⟨.ok (), [-1, -1], [-1], "c"⟩ ⟨.ok (), [-1, 1], [1], "d"⟩ 1 false).tableVals.map
        (fun row => (row.2.1, row.2.2))
      = (train_models (.ok ()) [[7]] [[8]] [1, -1] [-1]
        ⟨.ok (), [1, 1], [-1], "a"⟩ ⟨.ok (), [1, -1], [1], "b"⟩
        ⟨.ok (), [-1, -1], [-1], "c"⟩ ⟨.ok (), [-1, 1], [1], "d"⟩ 1 false).headlines :=
  (headline_and_table_accuracies_agree [[7]] [[8]] [1, -1] [-1]
    ⟨.ok (), [1, 1], [-1], "a"⟩ ⟨.ok (), [1, -1], [1], "b"⟩
    ⟨.ok (), [-1, -1], [-1], "c"⟩ ⟨.ok (), [-1, 1], [1], "d"⟩
    1 false _ rfl rfl rfl rfl rfl).2.2


lemma renderRow_length (n : String) (a b : ℚ) (hn : n.length ≤ 14)
    (ha0 : 0 ≤ a) (ha1 : a ≤ 1) (hb0 : 0 ≤ b) (hb1 : b ≤ 1) :
    (renderRow (n, a, b)).length = 28
    ∧ (padRight n 14).length = 14
    ∧ (padRight (format2f a) 7).length = 7
    ∧ (padRight (format2f b) 7).length = 7 := by
  have h1 := padRight_length n 14 hn
  have h2 := padRight_length (format2f a) 7 (by rw [format2f_length a ha0 ha1]; omega)
  have h3 := padRight_length (format2f b) 7 (by rw [format2f_length b hb0 hb1]; omega)
  refine ⟨?_, h1, h2, h3⟩
  simp [renderRow, String.length_append, h1, h2, h3]

/-- Claim C8: the final report's table has rule lines exactly 28
characters wide, a row per adapter in the fixed order `Adaboost`,
`DecisionTree`, `Qboost`, `QboostIt`, and each row is the method name
left-justified in a 14-character field followed by the train and test
accuracies, each rendered to two decimal places in a 7-character
left-justified field (so every row is 28 characters wide). -/
theorem final_table_fixed_width_format
    (Xtr Xte : List (List ℚ)) (ytr yte : List Int) (ada dt qb qbit : Adapter)
    (lmd : ℚ) (verbose : Bool) (r : RunResult)
    (hada : ada.fit = .ok ()) (hdt : dt.fit = .ok ())
    (hqb : qb.fit = .ok ()) (hqbit : qbit.fit = .ok ())
    (hr : r = train_models (.ok ()) Xtr Xte ytr yte ada dt qb qbit lmd verbose) :
    r.tableVals.map Prod.fst = methodNames
    ∧ (tableLines r.tableVals).IsSuffix r.lines
    ∧ (ruleLine '=').length = 28 ∧ (ruleLine '-').length = 28 ∧ tableHeader.length = 28
    ∧ tableLines r.tableVals
        = ["", ruleLine '=', tableHeader, ruleLine '-']
            ++ r.tableVals.map renderRow ++ [ruleLine '=']
    ∧ ∀ row ∈ r.tableVals,
        renderRow row = padRight row.1 14
            ++ padRight (format2f row.2.1) 7 ++ padRight (format2f row.2.2) 7
        ∧ (padRight row.1 14).length = 14
        ∧ (padRight (format2f row.2.1) 7).length = 7
        ∧ (padRight (format2f row.2.2) 7).length = 7
        ∧ (renderRow row).length = 28 := by
  subst hr
  obtain ⟨fa, aTr, aTe, aw⟩ := ada
  obtain ⟨fb, bTr, bTe, bw⟩ := dt
  obtain ⟨fc, cTr, cTe, cw⟩ := qb
  obtain ⟨fd, dTr, dTe, dw⟩ := qbit
  have hfa : fa = .ok () := hada
  have hfb : fb = .ok () := hdt
  have hfc : fc = .ok () := hqb
  have hfd : fd = .ok () := hqbit
  subst hfa hfb hfc hfd
  refine ⟨by simp [train_models, tableRows, methodNames], ⟨_, rfl⟩,
    ruleLine_length _, ruleLine_length _, tableHeader_length, rfl, ?_⟩
  intro row hrow
  have hv : (train_models (.ok ()) Xtr Xte ytr yte ⟨.ok (), aTr, aTe, aw⟩
      ⟨.ok (), bTr, bTe, bw⟩ ⟨.ok (), cTr, cTe, cw⟩ ⟨.ok (), dTr, dTe, dw⟩
      lmd verbose).tableVals
      = [("Adaboost", metric ytr aTr, metric yte aTe),
         ("DecisionTree", metric ytr bTr, metric yte bTe),
         ("Qboost", metric ytr cTr, metric yte cTe),
         ("QboostIt", metric ytr dTr, metric yte dTe)] := by
    simp [train_models, tableRows, methodNames]
  rw [hv] at hrow
  simp only [List.mem_cons, List.not_mem_nil, or_false] at hrow
  have key : ∀ (n : String) (a b : ℚ), n.length ≤ 14 → 0 ≤ a → a ≤ 1 → 0 ≤ b → b ≤ 1 →
      (renderRow (n, a, b) = padRight (n, a, b).1 14
          ++ padRight (format2f (n, a, b).2.1) 7 ++ padRight (format2f (n, a, b).2.2) 7
       ∧ (padRight (n, a, b).1 14).length = 14
       ∧ (padRight (format2f (n, a, b).2.1) 7).length = 7
       ∧ (padRight (format2f (n, a, b).2.2) 7).length = 7
       ∧ (renderRow (n, a, b)).length = 28) := by
    intro n a b hn ha0 ha1 hb0 hb1
    obtain ⟨h1, h2, h3, h4⟩ := renderRow_length n a b hn ha0 ha1 hb0 hb1
    exact ⟨rfl, h2, h3, h4, h1⟩
  rcases hrow with h | h | h | h <;> subst h <;>
    exact key _ _ _ (by decide) (metric_nonneg _ _) (metric_le_one _ _)
      (metric_nonneg _ _) (metric_le_one _ _)

/-- Witness for C8 at a concrete run. -/
theorem final_table_format_witness :
    ((train_models (.ok ()) [[2]] [[3]] [1] [1]
        ⟨.ok (), [1], [1], "a"⟩ ⟨.ok (), [1], [-1], "b"⟩
        ⟨.ok (), [-1], [1], "c"⟩ ⟨.ok (), [-1], [-1], "d"⟩ 1 false).tableVals).map Prod.fst
      = methodNames
    ∧ (tableLines (train_models (.ok ()) [[2]] [[3]] [1] [1]
        ⟨.ok (), [1], [1], "a"⟩ ⟨.ok (), [1], [-1], "b"⟩
        ⟨.ok (), [-1], [1], "c"⟩ ⟨.ok (), [-1], [-1], "d"⟩ 1 false).tableVals).IsSuffix
        (train_models (.ok ()) [[2]] [[3]] [1] [1]
        ⟨.ok (), [1], [1], "a"⟩ ⟨.ok (), [1], [-1], "b"⟩
        ⟨.ok (), [-1], [1], "c"⟩ ⟨.ok (), [-1], [-1], "d"⟩ 1 false).lines
    ∧ (ruleLine '=').length = 28 := by
  have h := final_table_fixed_width_format [[2]] [[3]] [1] [1]
    ⟨.ok (), [1], [1], "a"⟩ ⟨.ok (), [1], [-1], "b"⟩
    ⟨.ok (), [-1], [1], "c"⟩ ⟨.ok (), [-1], [-1], "d"⟩ 1 false _ rfl rfl rfl rfl rfl
  exact ⟨h.1, h.2.1, h.2.2.1⟩


/-- Claim C4: for any CLI invocation whose positional dataset argument is
outside the supported choices, the process stops with the argparse usage
diagnostic and exit status 2 (non-zero); the `usage` outcome carries no
`RunResult` — no dataset is loaded and no training is invoked. -/
theorem unknown_dataset_usage_error (env : Env) (arg : String)
    (h : arg ∉ datasetChoices) :
    main env arg = .usage 2 (usageDiagnostic arg) ∧ (2 : ℕ) ≠ 0 := by
  refine ⟨?_, by norm_num⟩
  simp [main, h]

/-- Witness for C4: the dataset identifier `"unknown"` is rejected with
the usage diagnostic and exit status 2. -/
theorem unknown_dataset_witness :
    main ⟨.ok (), [], [], [], [], [], [], ⟨.ok (), [], [], ""⟩, ⟨.ok (), [], [], ""⟩,
        ⟨.ok (), [], [], ""⟩, ⟨.ok (), [], [], ""⟩⟩ "unknown"
      = .usage 2 (usageDiagnostic "unknown") :=
  (unknown_dataset_usage_error _ "unknown" (by decide)).1

/-- Claim C5: every entry of the label vectors built by either dataset
branch is `+1` or `-1`: the mnist branch thresholds the string-valued
target with the lexicographic comparison against `"4"` (Python string
comparison, Lean's `≤` on `String`) and maps the boolean through
`2*b - 1`; the wisc branch maps the (0/1-valued, per `load_breast_cancer`)
target through `2*target - 1`. -/
theorem labels_are_spin_encoded (targets_m : List String) (targets_w : List Int)
    (idx : List ℕ) (hw : ∀ t ∈ targets_w, t = 0 ∨ t = 1) :
    (∀ y ∈ mnist_labels targets_m idx, y = 1 ∨ y = -1)
    ∧ (∀ y ∈ wisc_labels targets_w idx, y = 1 ∨ y = -1)
    ∧ (∀ t : String, mnist_label t = 2 * (if t ≤ "4" then 1 else 0) - 1)
    ∧ (∀ t : Int, wisc_label t = 2 * t - 1) := by
  refine ⟨?_, ?_, fun t => rfl, fun t => rfl⟩
  · intro y hy
    simp only [mnist_labels, select, List.map_map, List.mem_map, Function.comp] at hy
    obtain ⟨i, hi, rfl⟩ := hy
    unfold mnist_label
    by_cases h4 : targets_m.getD i "" ≤ "4"
    · left; rw [if_pos h4]; norm_num
    · right; rw [if_neg h4]; norm_num
  · intro y hy
    simp only [wisc_labels, select, List.map_map, List.mem_map, Function.comp] at hy
    obtain ⟨i, hi, rfl⟩ := hy
    have ht : targets_w.getD i 0 = 0 ∨ targets_w.getD i 0 = 1 := by
      by_cases hlen : i < targets_w.length
      · rw [List.getD_eq_getElem _ _ hlen]
        exact hw _ (List.getElem_mem hlen)
      · left
        rw [List.getD_eq_default]
        omega
    unfold wisc_label
    rcases ht with h | h
    · right; rw [h]; norm_num
    · left; rw [h]; norm_num

/-- Witness for C5 on concrete targets and index selections. -/
theorem labels_spin_witness :
    (mnist_label "3" = 1 ∨ mnist_label "3" = -1)
    ∧ (wisc_label 1 = 1 ∨ wisc_label 1 = -1) := by
  have h := labels_are_spin_encoded ["7", "3"] [0, 1] [1] (by decide)
  refine ⟨h.1 (mnist_label "3") ?_, h.2.1 (wisc_label 1) ?_⟩
  · simp [mnist_labels, select]
  · simp [wisc_labels, select]


lemma sumSq_cons (x : ℝ) (xs : List ℝ) : sumSq (x :: xs) = x ^ 2 + sumSq xs := by
  simp [sumSq]

lemma sumSq_nonneg (r : List ℝ) : 0 ≤ sumSq r := by
  refine List.sum_nonneg ?_
  intro x hx
  simp only [List.mem_map] at hx
  obtain ⟨y, _, rfl⟩ := hx
  positivity

lemma sumSq_eq_zero_iff (r : List ℝ) : sumSq r = 0 ↔ ∀ x ∈ r, x = 0 := by
  induction r with
  | nil => simp [sumSq]
  | cons x xs ih =>
    rw [sumSq_cons]
    constructor
    · intro h
      have hx := sq_nonneg x
      have hs := sumSq_nonneg xs
      have hx0 : x ^ 2 = 0 := by nlinarith
      have hs0 : sumSq xs = 0 := by nlinarith
      have : x = 0 := by
        have := pow_eq_zero_iff (n := 2) (by norm_num) |>.mp hx0
        exact this
      intro y hy
      rcases List.mem_cons.mp hy with rfl | hy
      · exact this
      · exact ih.mp hs0 y hy
    · intro h
      have hx : x = 0 := h x (List.mem_cons_self x xs)
      have hs : sumSq xs = 0 := ih.mpr (fun y hy => h y (List.mem_cons_of_mem x hy))
      simp [hx, hs]

lemma rowNorm_eq_zero_iff (r : List ℝ) : rowNorm r = 0 ↔ sumSq r = 0 := by
  rw [rowNorm, Real.sqrt_eq_zero (sumSq_nonneg r)]

lemma sumSq_map_div (r : List ℝ) (s : ℝ) (hs : s ≠ 0) :
    sumSq (r.map (fun x => x / s)) = sumSq r / s ^ 2 := by
  induction r with
  | nil => simp [sumSq]
  | cons x xs ih =>
    simp only [List.map_cons, sumSq_cons, ih]
    field_simp

lemma normalizeRow_unit (r : List ℝ) (h : sumSq r ≠ 0) :
    sumSq (normalizeRow r) = 1 := by
  have hn : rowNorm r ≠ 0 := fun hc => h ((rowNorm_eq_zero_iff r).mp hc)
  rw [normalizeRow, if_neg hn, sumSq_map_div r _ hn, rowNorm,
    Real.sq_sqrt (sumSq_nonneg r), div_self h]

lemma normalizeRow_length (r : List ℝ) : (normalizeRow r).length = r.length := by
  rw [normalizeRow]
  split <;> simp

lemma normalizeRow_zero (r : List ℝ) (h : ∀ x ∈ r, x = 0) : normalizeRow r = r := by
  rw [normalizeRow, if_pos ((rowNorm_eq_zero_iff r).mpr ((sumSq_eq_zero_iff r).mpr h))]

lemma getD_map_of_lt {α β : Type} (f : α → β) (l : List α) (i : ℕ) (d : α) (e : β)
    (hi : i < l.length) : (l.map f).getD i e = f (l.getD i d) := by
  induction l generalizing i with
  | nil => simp at hi
  | cons a as ih =>
    cases i with
    | zero => rfl
    | succ k => exact ih k (by simpa using hi)

lemma standardize_row_entry (X : List (List ℝ)) (r : List ℝ) (j : ℕ)
    (hjr : j < r.length) :
    (r.mapIdx fun k x => (x - mean (col X k)) / scale (col X k)).getD j 0
      = (r.getD j 0 - mean (col X j)) / scale (col X j) := by
  have hj2 : j < (r.mapIdx fun k x => (x - mean (col X k)) / scale (col X k)).length := by
    simpa using hjr
  rw [List.getD_eq_getElem _ _ hj2, List.getElem_mapIdx, List.getD_eq_getElem _ _ hjr]

/-- Claim C6: the preprocessing applies exactly two stages in fixed
order — per-feature standardization (subtract the column mean, divide by
the column standard deviation, zero-variance columns left at their
centered value because their divisor is replaced by 1), then per-sample
L2 normalization (every row with a non-zero entry is scaled so the sum of
its squared entries is 1; all-zero rows are left unchanged) — and the
output has the same shape as the input (same number of rows, each row of
unchanged length). -/
theorem preprocessing_stages_shape_and_zero_policies (X : List (List ℝ)) :
    fit_transform X = normalize (standardize X)
    ∧ (fit_transform X).length = X.length
    ∧ (∀ i, ((fit_transform X).getD i []).length = (X.getD i []).length)
    ∧ (∀ j, (∀ r ∈ X, j < r.length) → variance (col X j) = 0 →
        col (standardize X) j = (col X j).map (fun x => x - mean (col X j)))
    ∧ (∀ r : List ℝ, (∃ x ∈ r, x ≠ 0) → sumSq (normalizeRow r) = 1)
    ∧ (∀ r : List ℝ, (∀ x ∈ r, x = 0) → normalizeRow r = r) := by
  have hlen : (fit_transform X).length = X.length := by
    rw [fit_transform, normalize, List.length_map, standardize, List.length_map]
  refine ⟨rfl, hlen, ?_, ?_, ?_, normalizeRow_zero⟩
  · intro i
    by_cases hi : i < X.length
    · have hstd : i < (standardize X).length := by rw [standardize, List.length_map]; exact hi
      rw [fit_transform, normalize, getD_map_of_lt normalizeRow _ i [] [] hstd,
        normalizeRow_length, standardize,
        getD_map_of_lt _ _ i [] [] hi, List.length_mapIdx]
    · rw [List.getD_eq_default _ _ (by rw [hlen]; omega),
        List.getD_eq_default _ _ (by omega)]
  · intro j hj hvar
    have hscale : scale (col X j) = 1 := by
      rw [scale, hvar, Real.sqrt_zero, if_pos rfl]
    show col (X.map _) j = _
    rw [col, col, List.map_map, List.map_map]
    refine List.map_congr_left ?_
    intro r hr
    simp only [Function.comp]
    rw [standardize_row_entry X r j (hj r hr), hscale, div_one]
    rfl
  · intro r hex
    obtain ⟨x, hx, hxne⟩ := hex
    refine normalizeRow_unit r ?_
    intro hc
    exact hxne ((sumSq_eq_zero_iff r).mp hc x hx)

/-- Witness for C6 at a concrete matrix and concrete rows. -/
theorem preprocessing_shape_witness :
    (fit_transform [[3, 4]]).length = 1
    ∧ sumSq (normalizeRow [3, 4]) = 1
    ∧ normalizeRow [0, 0] = [0, 0] := by
  have h := preprocessing_stages_shape_and_zero_policies [[3, 4]]
  refine ⟨h.2.1.trans rfl, ?_, ?_⟩
  · exact h.2.2.2.2.1 [3, 4] ⟨3, by norm_num, by norm_num⟩
  · exact h.2.2.2.2.2 [0, 0]
      (by intro x hx; rcases List.mem_cons.mp hx with rfl | hx <;> simp_all)

lemma mean_pair (a b : ℝ) : mean [a, b] = (a + b) / 2 := by
  simp [mean]

lemma variance_pair (a b : ℝ) : variance [a, b] = ((a - mean [a, b]) ^ 2 + (b - mean [a, b]) ^ 2) / 2 := by
  simp [variance]

lemma scale_zz : scale ([0, 0] : List ℝ) = 1 := by
  have hv : variance ([0, 0] : List ℝ) = 0 := by
    rw [variance_pair, mean_pair]
    norm_num
  rw [scale, hv, Real.sqrt_zero, if_pos rfl]

lemma mean_zz : mean ([0, 0] : List ℝ) = 0 := by rw [mean_pair]; norm_num

lemma scale_02 : scale ([0, 2] : List ℝ) = 1 := by
  have hv : variance ([0, 2] : List ℝ) = 1 := by
    rw [variance_pair, mean_pair]
    norm_num
  rw [scale, hv, Real.sqrt_one, if_neg one_ne_zero]

lemma mean_02 : mean ([0, 2] : List ℝ) = 1 := by rw [mean_pair]; norm_num

lemma normalizeRow_zz : normalizeRow ([0, 0] : List ℝ) = [0, 0] :=
  normalizeRow_zero [0, 0] (by intro x hx; rcases List.mem_cons.mp hx with rfl | hx <;> simp_all)

lemma fit_transform_zz : fit_transform [[(0 : ℝ), 0], [0, 0]] = [[0, 0], [0, 0]] := by
  have hcol : ∀ j, j < 2 → col [[(0 : ℝ), 0], [0, 0]] j = [0, 0] := by
    intro j hj
    interval_cases j <;> simp [col]
  have hstd : standardize [[(0 : ℝ), 0], [0, 0]] = [[0, 0], [0, 0]] := by
    rw [standardize]
    simp only [List.map_cons, List.map_nil, List.mapIdx_cons, List.mapIdx_nil]
    rw [hcol 0 (by norm_num), hcol 1 (by norm_num), mean_zz, scale_zz]
    norm_num
  rw [fit_transform, hstd, normalize]
  simp only [List.map_cons, List.map_nil, normalizeRow_zz]

lemma sqrt_two_ne_zero : Real.sqrt 2 ≠ 0 := by
  have : (0 : ℝ) < Real.sqrt 2 := Real.sqrt_pos.mpr (by norm_num)
  exact ne_of_gt this

lemma normalizeRow_mm : normalizeRow ([-1, -1] : List ℝ)
    = [-1 / Real.sqrt 2, -1 / Real.sqrt 2] := by
  have hs : sumSq ([-1, -1] : List ℝ) = 2 := by
    rw [show ([-1, -1] : List ℝ) = [-1] ++ [-1] by rfl]
    simp [sumSq]
    norm_num
  have hn : rowNorm ([-1, -1] : List ℝ) = Real.sqrt 2 := by rw [rowNorm, hs]
  rw [normalizeRow, hn, if_neg sqrt_two_ne_zero]
  simp

lemma transform_with_train_params_eval :
    transform_with_train_params [[(0 : ℝ), 0], [2, 2]] [[0, 0], [0, 0]]
      = [[-1 / Real.sqrt 2, -1 / Real.sqrt 2], [-1 / Real.sqrt 2, -1 / Real.sqrt 2]] := by
  have hcol : ∀ j, j < 2 → col [[(0 : ℝ), 0], [2, 2]] j = [0, 2] := by
    intro j hj
    interval_cases j <;> simp [col]
  rw [transform_with_train_params]
  simp only [List.map_cons, List.map_nil, List.mapIdx_cons, List.mapIdx_nil]
  rw [hcol 0 (by norm_num), hcol 1 (by norm_num), mean_02, scale_02]
  norm_num
  rw [normalize]
  simp only [List.map_cons, List.map_nil, normalizeRow_mm]

/-- Claim C3: the test feature matrix is transformed with parameters
fitted on the test matrix itself — lines 81-86 call `fit_transform`
independently on `X_train` and on `X_test`, so the transformed test matrix
is a function of `X_test` alone (unchanged under any change of `X_train`),
and it differs, on a concrete input, from what applying the train-fitted
parameters to `X_test` would give. -/
theorem test_preprocessing_fit_independently (Xtr Xtr2 Xte : List (List ℝ)) :
    (preprocess Xtr Xte).2 = fit_transform Xte
    ∧ (preprocess Xtr Xte).2 = (preprocess Xtr2 Xte).2
    ∧ fit_transform [[(0 : ℝ), 0], [0, 0]]
        ≠ transform_with_train_params [[(0 : ℝ), 0], [2, 2]] [[0, 0], [0, 0]] := by
  refine ⟨rfl, rfl, ?_⟩
  rw [fit_transform_zz, transform_with_train_params_eval]
  intro h
  have h0 : ((0 : ℝ)) = -1 / Real.sqrt 2 := by
    have := congrArg (fun M => (M.getD 0 []).getD 0 0) h
    simpa using this
  have hpos : (0 : ℝ) < Real.sqrt 2 := Real.sqrt_pos.mpr (by norm_num)
  have : -1 / Real.sqrt 2 < 0 := by
    apply div_neg_of_neg_of_pos (by norm_num) hpos
  rw [← h0] at this
  exact lt_irrefl 0 this

/-- Witness for C3 at concrete train and test matrices. -/
theorem test_preprocessing_witness :
    (preprocess [[(1 : ℝ)], [2]] [[5], [7]]).2 = fit_transform [[5], [7]] :=
  (test_preprocessing_fit_independently [[(1 : ℝ)], [2]] [[3], [4]] [[5], [7]]).1

end QboostDemo
